import Mathlib

set_option maxRecDepth 8192

/-!
Shallow embedding of the netdev_exporter counter-collection pipeline
(src/netdev_exporter/__init__.py).

External effects are made explicit:
* a subprocess invocation is a `Option ProcResult` (`none` models the
  `FileNotFoundError` raised when the binary is missing; `some p` gives the
  exit status and the decoded stdout/stderr);
* the sysfs tree is a function `String → Option String` from a path to the
  file's content (`none` models `OSError`: missing or unreadable file);
* the Prometheus registry is a partial map from (metric name, device label)
  to the accumulated counter value; `labels(device).inc(v)` creates the
  child at 0 if absent and adds `v` (`regInc`); a key being present models
  the rendered exposition containing a sample line for that pair;
* `logging.warning` calls are collected in a list of strings;
* a Python exception escaping `get_counters` is `Except.error ()`.
-/

/-- The ETHTOOL_COUNTERS catalogue constant, verbatim from the source. -/
def ETHTOOL_COUNTERS : List String := [
  "rx_buffer_passed_thres_phy",
  "rx_bytes_phy",
  "rx_corrected_bits_phy",
  "rx_cqe_compress_blks",
  "rx_cqe_compress_pkts",
  "rx_crc_errors_phy",
  "rx_discards_phy",
  "rx_fifo_errors",
  "rx_missed_errors",
  "rx_mpwqe_filler",
  "rx_multicast_phy",
  "rx_out_of_buffer",
  "rx_over_errors",
  "rx_oversize_packets_phy",
  "rx_pci_signal_integrity",
  "rx_pcs_symbol_err_phy",
  "rx_prio0_buf_discard",
  "rx_prio0_cong_discard",
  "rx_prio0_discards",
  "rx_steer_missed_packets",
  "rx_symbol_err_phy",
  "rx_wqe_err",
  "tx_bytes_phy",
  "tx_cqe_err",
  "tx_dropped",
  "tx_fifo_errors",
  "tx_multicast_phy",
  "tx_pci_signal_integrity",
  "tx_queue_stopped"]

/-- The RDMA_COUNTERS catalogue constant, verbatim from the source. -/
def RDMA_COUNTERS : List String := [
  "out_of_buffer",
  "req_cqe_error",
  "req_cqe_flush_error",
  "resp_cqe_error",
  "resp_cqe_flush_error",
  "resp_local_length_error"]

/-- Result of a subprocess that was successfully spawned: its exit status and
the decoded contents of its stdout and stderr pipes. -/
structure ProcResult where
  returncode : Int
  stdout : String
  stderr : String

/-- `bytes.splitlines`: split on LF, CR and CRLF, no trailing empty line. -/
def splitlinesAux : List Char → List Char → List String
  | [], acc => if acc.isEmpty then [] else [String.mk acc.reverse]
  | '\r' :: '\n' :: rest, acc => String.mk acc.reverse :: splitlinesAux rest []
  | '\r' :: rest, acc => String.mk acc.reverse :: splitlinesAux rest []
  | '\n' :: rest, acc => String.mk acc.reverse :: splitlinesAux rest []
  | c :: rest, acc => splitlinesAux rest (c :: acc)

def splitlines (s : String) : List String := splitlinesAux s.data []

/-- Value of a (non-empty, all-digit) decimal digit string, as `int` parses it. -/
def digitsToNat (ds : List Char) : Nat :=
  ds.foldl (fun n c => n * 10 + (c.toNat - 48)) 0

/-- `re.match(r'([^ ]+) port (\d+) ==> ([^ ]+)', text)` from `ibdev_mapping`,
returning `(group 1, int(group 2), group 3)`, i.e. (ibdev, port, netdev).
The character classes exclude a space, so each greedy group is the maximal
run allowed by its class and the literals in between must follow exactly;
`re.match` anchors at the start only, so trailing text is ignored.
Digits are modelled as ASCII digits. -/
def parseIbLine (cs : List Char) : Option (String × Nat × String) :=
  let p1 := cs.span (fun c => c != ' ')
  if p1.1.isEmpty then none else
  match p1.2 with
  | ' ' :: 'p' :: 'o' :: 'r' :: 't' :: ' ' :: r2 =>
    let p2 := r2.span Char.isDigit
    if p2.1.isEmpty then none else
    match p2.2 with
    | ' ' :: '=' :: '=' :: '>' :: ' ' :: r4 =>
      let p3 := r4.span (fun c => c != ' ')
      if p3.1.isEmpty then none else
      some (String.mk p1.1, digitsToNat p2.1, String.mk p3.1)
    | _ => none
  | _ => none

/-- `re.match(r' +([^ :]+): (\d+)', text)` from `update_ethtool`, returning
`(group 1, int(group 2))`. The space run and the name run are maximal
(backtracking cannot help since the following literal is excluded from the
class); trailing text after the digits is ignored. -/
def parseEthtoolLine (cs : List Char) : Option (String × Nat) :=
  let p0 := cs.span (fun c => c == ' ')
  if p0.1.isEmpty then none else
  let p1 := p0.2.span (fun c => c != ' ' && c != ':')
  if p1.1.isEmpty then none else
  match p1.2 with
  | ':' :: ' ' :: r3 =>
    let p2 := r3.span Char.isDigit
    if p2.1.isEmpty then none else
    some (String.mk p1.1, digitsToNat p2.1)
  | _ => none

/-- A Prometheus registry, observed through `collect`: the partial map from
(metric name, device label) to the child counter's value. A present key is
exactly a sample line in the rendered exposition text. -/
abbrev Registry := String × String → Option Nat

def emptyRegistry : Registry := fun _ => none

/-- `counter.labels(device).inc(v)`: create the child at 0 if absent, add `v`. -/
def regInc (r : Registry) (metric device : String) (v : Nat) : Registry :=
  fun k => if k = (metric, device) then some ((r k).getD 0 + v) else r k

/-- A Python dict from netdev name to (ibdev, port), in insertion order. -/
abbrev IbMap := List (String × String × Nat)

/-- `dict.__setitem__`: overwrite in place if the key exists, else append. -/
def assocSet : IbMap → String → String × Nat → IbMap
  | [], k, v => [(k, v)]
  | (k0, v0) :: rest, k, v =>
    if k0 = k then (k0, v) :: rest else (k0, v0) :: assocSet rest k v

/-- `dict.__getitem__` (as an Option; `none` is the `KeyError` case). -/
def lookupA : IbMap → String → Option (String × Nat)
  | [], _ => none
  | (k0, v0) :: rest, k => if k0 = k then some v0 else lookupA rest k

/-- One iteration of the line loop in `ibdev_mapping`:
`out[match.group(3)] = (match.group(1), int(match.group(2)))` on a match,
nothing otherwise. -/
def ibLineStep (m : IbMap) (line : String) : IbMap :=
  match parseIbLine line.data with
  | some (ibdev, port, netdev) => assocSet m netdev (ibdev, port)
  | none => m

def ibParseLines (lines : List String) : IbMap := lines.foldl ibLineStep []

/-- `ibdev_mapping`: `{}` when the binary is missing (FileNotFoundError is
caught) or the exit status is nonzero; otherwise the parsed stdout lines. -/
def ibdev_mapping (spawn : Option ProcResult) : IbMap :=
  match spawn with
  | none => []
  | some p => if p.returncode ≠ 0 then [] else ibParseLines (splitlines p.stdout)

/-- One iteration of the line loop in `update_ethtool`: on a regex match whose
name is a key of the counters dict (= the ethtool catalogue),
`counters[name].labels(device).inc(value)`; otherwise nothing. -/
def ethtoolLineStep (device : String) (r : Registry) (line : String) : Registry :=
  match parseEthtoolLine line.data with
  | some (name, value) =>
    if name ∈ ETHTOOL_COUNTERS then
      regInc r ("ethtool_" ++ name ++ "_total") device value
    else r
  | none => r

/-- `update_ethtool`. A missing `/sbin/ethtool` binary is NOT caught here
(no try/except around `create_subprocess_exec`), so it is an error.
Exit status 94 returns silently; any other nonzero status logs a warning and
returns; status 0 folds the line parser over stdout. -/
def update_ethtool (device : String) (spawn : Option ProcResult) (r : Registry) :
    Except Unit (Registry × List String) :=
  match spawn with
  | none => Except.error ()
  | some p =>
    if p.returncode ≠ 0 then
      if p.returncode ≠ 94 then
        Except.ok (r, ["ethtool failed: " ++ p.stderr])
      else Except.ok (r, [])
    else Except.ok ((splitlines p.stdout).foldl (ethtoolLineStep device) r, [])

/-- `'/sys/class/infiniband/{}/ports/{}/hw_counters'.format(ibdev, port) / name`. -/
def rdmaPath (ibdev : String) (port : Nat) (name : String) : String :=
  "/sys/class/infiniband/" ++ ibdev ++ "/ports/" ++ toString port ++
    "/hw_counters/" ++ name

def isPyWs (c : Char) : Bool :=
  c = ' ' || c = '\t' || c = '\n' || c = '\r' || c = '\x0b' || c = '\x0c'

def stripWs (cs : List Char) : List Char :=
  ((cs.dropWhile isPyWs).reverse.dropWhile isPyWs).reverse

def decDigits (ds : List Char) : Option Nat :=
  match ds with
  | [] => none
  | _ => if ds.all Char.isDigit then some (digitsToNat ds) else none

/-- Python `int(s)` on a string: strip whitespace, optional sign, then a
non-empty run of (ASCII-modelled) decimal digits; anything else raises
`ValueError`, modelled as `none`. -/
def pyInt (s : String) : Option Int :=
  match stripWs s.data with
  | [] => none
  | '-' :: ds => (decDigits ds).map (fun n => -(n : Int))
  | '+' :: ds => (decDigits ds).map (fun n => (n : Int))
  | ds => (decDigits ds).map (fun n => (n : Int))

/-- `int(f.read())` for the counter file at the fixed sysfs path: `none` when
the open/read raises `OSError` or the content fails to parse (`ValueError`);
both are caught by the `except (OSError, ValueError): pass`. -/
def rdmaRead (fs : String → Option String) (ibdev : String) (port : Nat)
    (name : String) : Option Int :=
  (fs (rdmaPath ibdev port name)).bind pyInt

/-- The `for name, counter in counters.items()` loop of `update_rdma`,
in catalogue (= dict insertion) order. A successful read increments the
counter; `prometheus_client.Counter.inc` raises `ValueError` on a negative
amount, and that exception is raised outside the `try` (the increment is in
the `else:` clause), so a negative value aborts the scrape. -/
def update_rdma_from (names : List String) (device ibdev : String) (port : Nat)
    (fs : String → Option String) (r : Registry) : Except Unit Registry :=
  match names with
  | [] => Except.ok r
  | name :: rest =>
    match rdmaRead fs ibdev port name with
    | none => update_rdma_from rest device ibdev port fs r
    | some v =>
      if v < 0 then Except.error ()
      else update_rdma_from rest device ibdev port fs
        (regInc r ("rdma_" ++ name ++ "_total") device v.toNat)

/-- `update_rdma`. -/
def update_rdma (device ibdev : String) (port : Nat) (fs : String → Option String)
    (r : Registry) : Except Unit Registry :=
  update_rdma_from RDMA_COUNTERS device ibdev port fs r

/-- The observable inputs of one scrape cycle: the `/sys/class/net` listing
and which of its entries have a `device` backing link, and the outcomes of
the two external tools and of sysfs reads. -/
structure World where
  sysClassNet : List String
  hasDeviceLink : String → Bool
  ibSpawn : Option ProcResult
  ethtoolSpawn : String → Option ProcResult
  sysfs : String → Option String

/-- `physical_devices`: the `/sys/class/net` entries whose `device` link exists. -/
def physical_devices (w : World) : List String :=
  w.sysClassNet.filter w.hasDeviceLink

/-- One iteration of the device loop in `get_counters`: run `update_ethtool`,
then, when the device has an entry in the ib map (`KeyError` is caught),
run `update_rdma`. -/
def deviceStep (w : World) (ibdevs : IbMap) (acc : Registry × List String)
    (device : String) : Except Unit (Registry × List String) :=
  match update_ethtool device (w.ethtoolSpawn device) acc.1 with
  | Except.error e => Except.error e
  | Except.ok (r1, logs1) =>
    match lookupA ibdevs device with
    | none => Except.ok (r1, acc.2 ++ logs1)
    | some (ibdev, port) =>
      match update_rdma device ibdev port w.sysfs r1 with
      | Except.error e => Except.error e
      | Except.ok r2 => Except.ok (r2, acc.2 ++ logs1)

def scrapeFold (w : World) (ibdevs : IbMap) :
    List String → Registry × List String → Except Unit (Registry × List String)
  | [], acc => Except.ok acc
  | d :: rest, acc =>
    match deviceStep w ibdevs acc d with
    | Except.error e => Except.error e
    | Except.ok acc2 => scrapeFold w ibdevs rest acc2

/-- `get_counters`: fresh empty registry, device discovery, ib correlation,
then the per-device loop. An uncaught exception anywhere is `Except.error`. -/
def get_counters (w : World) : Except Unit (Registry × List String) :=
  scrapeFold w (ibdev_mapping w.ibSpawn) (physical_devices w) (emptyRegistry, [])

/-- The sample rendered for (metric, device) by a scrape of world `w`:
`none` when the scrape raised or the registry holds no child for the pair. -/
def scrapeSample (w : World) (metric device : String) : Option Nat :=
  match get_counters w with
  | Except.error _ => none
  | Except.ok (r, _) => r (metric, device)

example : splitlines "mlx5_0 port 1 ==> eth0\n" = ["mlx5_0 port 1 ==> eth0"] := by decide

example : parseIbLine "mlx5_0 port 1 ==> eth0".data = some ("mlx5_0", 1, "eth0") := by decide

example : parseEthtoolLine "     rx_bytes_phy: 12345".data = some ("rx_bytes_phy", 12345) := by decide

example : pyInt "42" = some 42 := by decide

example : pyInt " -7\n" = some (-7) := by decide

example : pyInt "4x2" = none := by decide

lemma lookupA_assocSet (m : IbMap) (k : String) (v : String × Nat) (k' : String) :
    lookupA (assocSet m k v) k' = if k' = k then some v else lookupA m k' := by
  induction m with
  | nil =>
    simp only [assocSet, lookupA]
    by_cases h : k = k'
    · subst h; simp
    · rw [if_neg h, if_neg (fun hh => h hh.symm)]
  | cons hd tl ih =>
    obtain ⟨k0, v0⟩ := hd
    simp only [assocSet]
    by_cases h0 : k0 = k
    · subst h0
      simp only [if_pos rfl, lookupA]
      by_cases h' : k0 = k'
      · subst h'; simp
      · rw [if_neg h', if_neg (fun hh => h' hh.symm), if_neg h']
    · rw [if_neg h0]
      simp only [lookupA]
      by_cases h' : k0 = k'
      · subst h'
        rw [if_pos rfl, if_neg h0, if_pos rfl]
      · rw [if_neg h', ih, if_neg h']

/-- The specification-side reading of the correlation parser: for a given
netdev name, keep the (ibdev, port) pair of the LAST line of the output
that matches the pattern and names that netdev. -/
def lastMatchSpec (lines : List String) (dev : String) : Option (String × Nat) :=
  lines.foldl (fun acc line =>
    match parseIbLine line.data with
    | some (ibdev, port, netdev) => if netdev = dev then some (ibdev, port) else acc
    | none => acc) none

lemma ibFold_lookup (lines : List String) (m : IbMap) (dev : String) :
    lookupA (lines.foldl ibLineStep m) dev =
      lines.foldl (fun acc line =>
        match parseIbLine line.data with
        | some (ibdev, port, netdev) => if netdev = dev then some (ibdev, port) else acc
        | none => acc) (lookupA m dev) := by
  induction lines generalizing m with
  | nil => rfl
  | cons line rest ih =>
    simp only [List.foldl_cons]
    rw [ih]
    congr 1
    unfold ibLineStep
    cases h : parseIbLine line.data with
    | none => rfl
    | some t =>
      obtain ⟨ib, port, nd⟩ := t
      simp only
      rw [lookupA_assocSet]
      by_cases hnd : nd = dev
      · subst hnd; simp
      · rw [if_neg (fun hh => hnd hh.symm), if_neg hnd]

/-- Claim C10: when several lines of the mapping tool's output match the
pattern with the same netdev name, the dict built by `ibdev_mapping` keeps
the (ibdev, port) pair of the last such line in output order, earlier
entries being silently overwritten. -/
theorem claim_C10_duplicate_netdev_last_wins (lines : List String) (dev : String) :
    lookupA (ibParseLines lines) dev = lastMatchSpec lines dev := by
  unfold ibParseLines lastMatchSpec
  rw [ibFold_lookup]
  rfl

/-- Claim C3: the correlation parser maps `"<ibdev> port <N> ==> <netdev>"`
lines to entries keyed by netdev with value (ibdev, N); the single input line
`"mlx5_0 port 1 ==> eth0\n"` yields exactly `{"eth0": ("mlx5_0", 1)}`; a
non-matching line (e.g. `"garbage"`) contributes no entry and does not abort
the parsing of subsequent lines. -/
theorem claim_C3_ib_line_mapping :
    ibdev_mapping (some ⟨0, "mlx5_0 port 1 ==> eth0\n", ""⟩) =
      [("eth0", ("mlx5_0", 1))] ∧
    parseIbLine "garbage".data = none ∧
    ∀ (m : IbMap) (line : String) (rest : List String),
      parseIbLine line.data = none →
      (line :: rest).foldl ibLineStep m = rest.foldl ibLineStep m := by
  refine ⟨by decide, by decide, ?_⟩
  intro m line rest h
  simp [List.foldl_cons, ibLineStep, h]

theorem claim_C3_ib_line_mapping_witness :
    ("garbage" :: ["mlx5_0 port 1 ==> eth0"]).foldl ibLineStep [] =
      (["mlx5_0 port 1 ==> eth0"] : List String).foldl ibLineStep [] :=
  claim_C3_ib_line_mapping.2.2 [] "garbage" ["mlx5_0 port 1 ==> eth0"] (by decide)

/-- Claim C5: a diagnostic-tool output line `"  <name>: <integer>"` whose name
is in the ethtool catalogue increments the counter labeled by the device by
exactly the parsed integer (and touches no other key); a parsed line whose
name is not in the catalogue, or an unparseable line, leaves the registry
unchanged. Concretely, `"     rx_bytes_phy: 12345"` parses to 12345 for
`rx_bytes_phy`, and `"unknown_counter: 9"` does not parse. -/
theorem claim_C5_ethtool_line_increments (d : String) (r : Registry) (line : String) :
    (∀ name value, parseEthtoolLine line.data = some (name, value) →
      name ∈ ETHTOOL_COUNTERS →
      ethtoolLineStep d r line ("ethtool_" ++ name ++ "_total", d) =
        some ((r ("ethtool_" ++ name ++ "_total", d)).getD 0 + value) ∧
      ∀ k, k ≠ ("ethtool_" ++ name ++ "_total", d) → ethtoolLineStep d r line k = r k) ∧
    (∀ name value, parseEthtoolLine line.data = some (name, value) →
      name ∉ ETHTOOL_COUNTERS → ethtoolLineStep d r line = r) ∧
    (parseEthtoolLine line.data = none → ethtoolLineStep d r line = r) ∧
    parseEthtoolLine "     rx_bytes_phy: 12345".data = some ("rx_bytes_phy", 12345) ∧
    parseEthtoolLine "unknown_counter: 9".data = none := by
  refine ⟨?_, ?_, ?_, by decide, by decide⟩
  · intro name value hp hmem
    constructor
    · simp [ethtoolLineStep, hp, hmem, regInc]
    · intro k hk
      simp [ethtoolLineStep, hp, hmem, regInc, hk]
  · intro name value hp hmem
    simp [ethtoolLineStep, hp, hmem]
  · intro h
    simp [ethtoolLineStep, h]

theorem claim_C5_witness :
    ethtoolLineStep "eth0" emptyRegistry "     rx_bytes_phy: 12345"
      ("ethtool_rx_bytes_phy_total", "eth0") = some 12345 :=
  ((claim_C5_ethtool_line_increments "eth0" emptyRegistry
    "     rx_bytes_phy: 12345").1 "rx_bytes_phy" 12345 (by decide) (by decide)).1

/-- A world with one physical device whose ethtool binary is absent:
`/sys/class/net` lists `eth0` with a `device` link, the mapping tool
succeeds with empty output, and `/sbin/ethtool` is missing. -/
def c2World : World where
  sysClassNet := ["eth0"]
  hasDeviceLink := fun _ => true
  ibSpawn := some ⟨0, "", ""⟩
  ethtoolSpawn := fun _ => none
  sysfs := fun _ => none

/-- Claim C2 counterexample: a missing ethtool binary IS fatal to the scrape.
`update_ethtool` does not wrap `create_subprocess_exec` in a try/except, so
the `FileNotFoundError` propagates out of `get_counters` (here:
`Except.error`), aborting the whole cycle instead of degrading to "no data
from this source". -/
theorem claim_C2_counterexample : get_counters c2World = Except.error () := rfl

/-- Claim C2 amended: a NONZERO EXIT of the diagnostic tool is never fatal:
status 94 ("no statistics available") is tolerated silently, any other
nonzero status logs one warning built from the tool's stderr; either way the
registry is unchanged (the device contributes no ethtool counters) and the
call returns normally so collection continues. A missing binary, by
contrast, raises (`Except.error`). -/
theorem claim_C2_amended_nonzero_exit_tolerated (d : String) (p : ProcResult)
    (r : Registry) (h : p.returncode ≠ 0) :
    update_ethtool d (some p) r =
      Except.ok (r, if p.returncode = 94 then []
                    else ["ethtool failed: " ++ p.stderr]) ∧
    update_ethtool d none r = Except.error () := by
  refine ⟨?_, rfl⟩
  by_cases h94 : p.returncode = 94
  · simp [update_ethtool, h, h94]
  · simp [update_ethtool, h, h94]

theorem claim_C2_amended_witness :
    update_ethtool "eth0" (some ⟨1, "", "boom"⟩) emptyRegistry =
      Except.ok (emptyRegistry, ["ethtool failed: boom"]) ∧
    update_ethtool "eth0" none emptyRegistry = Except.error () := by
  have h := claim_C2_amended_nonzero_exit_tolerated "eth0" ⟨1, "", "boom"⟩
    emptyRegistry (by decide)
  exact ⟨by simpa using h.1, h.2⟩

/-- The sample rendered for `(metric, d)` after running `update_ethtool` for
device `d` on a fresh registry with the given tool outcome. -/
def ethSampleOf (d : String) (p : ProcResult) (metric : String) : Option Nat :=
  match update_ethtool d (some p) emptyRegistry with
  | Except.ok (r, _) => r (metric, d)
  | Except.error _ => none

/-- Claim C9 counterexample: when the tool reports the same catalogue name
twice in one cycle (readings 5 then 7), the counter ends at the SUM 12, not
at the latest absolute reading 7 — each matching line performs its own
additive write, so the "single additive write of the freshly read value"
description fails on such output. -/
theorem claim_C9_counterexample :
    ethSampleOf "eth0" ⟨0, "  rx_bytes_phy: 5\n  rx_bytes_phy: 7\n", ""⟩
        "ethtool_rx_bytes_phy_total" = some 12 ∧
    ethSampleOf "eth0" ⟨0, "  rx_bytes_phy: 5\n  rx_bytes_phy: 7\n", ""⟩
        "ethtool_rx_bytes_phy_total" ≠ some 7 := by
  exact ⟨by decide, by decide⟩

/-- The readings one run of the ethtool line loop for device `device`
contributes to the registry key `k`: the parsed values of the stdout lines
whose name is in the catalogue and whose (metric, device) pair is `k`,
in output order. -/
def ethKeyValues (device : String) (k : String × String) (lines : List String) :
    List Nat :=
  lines.filterMap (fun line =>
    match parseEthtoolLine line.data with
    | some (name, value) =>
      if name ∈ ETHTOOL_COUNTERS ∧ k = ("ethtool_" ++ name ++ "_total", device)
      then some value else none
    | none => none)

lemma ethFold_lookup (lines : List String) (device : String) (r : Registry)
    (k : String × String) :
    (lines.foldl (ethtoolLineStep device) r) k =
      (if ethKeyValues device k lines = [] then r k
       else some ((r k).getD 0 + (ethKeyValues device k lines).sum)) := by
  induction lines generalizing r with
  | nil => simp [ethKeyValues]
  | cons line rest ih =>
    simp only [List.foldl_cons]
    rw [ih]
    cases hp : parseEthtoolLine line.data with
    | none =>
      have hstep : ethtoolLineStep device r line = r := by
        simp [ethtoolLineStep, hp]
      have hvals : ethKeyValues device k (line :: rest) = ethKeyValues device k rest := by
        simp [ethKeyValues, List.filterMap_cons, hp]
      rw [hstep, hvals]
    | some pr =>
      obtain ⟨name, value⟩ := pr
      by_cases hmem : name ∈ ETHTOOL_COUNTERS
      · by_cases hk : k = ("ethtool_" ++ name ++ "_total", device)
        · have hstep : ethtoolLineStep device r line k = some ((r k).getD 0 + value) := by
            simp [ethtoolLineStep, hp, hmem, regInc, hk]
          have hvals : ethKeyValues device k (line :: rest) =
              value :: ethKeyValues device k rest := by
            simp [ethKeyValues, List.filterMap_cons, hp, hmem, hk]
          rw [hstep, hvals]
          by_cases hrest : ethKeyValues device k rest = []
          · simp [hrest]
          · simp [hrest, Nat.add_assoc]
        · have hstep : ethtoolLineStep device r line k = r k := by
            simp [ethtoolLineStep, hp, hmem, regInc, hk]
          have hvals : ethKeyValues device k (line :: rest) = ethKeyValues device k rest := by
            simp [ethKeyValues, List.filterMap_cons, hp, hmem, hk]
          rw [hstep, hvals]
      · have hstep : ethtoolLineStep device r line = r := by
          simp [ethtoolLineStep, hp, hmem]
        have hvals : ethKeyValues device k (line :: rest) = ethKeyValues device k rest := by
          simp [ethKeyValues, List.filterMap_cons, hp, hmem]
        rw [hstep, hvals]

/-- Claim C9 amended: the registry starts the cycle at zero and every
successfully parsed reading performs one additive write, so after
`update_ethtool` a pair's value is the SUM of all readings parsed for it
this cycle; when the source yields exactly one reading for the pair — the
case for the real tool, which prints each statistic once — this is that
single absolute reading (not a delta accumulated across scrapes). -/
theorem claim_C9_amended_value_is_cycle_sum (d : String) (p : ProcResult)
    (res : Registry) (logs : List String) (h0 : p.returncode = 0)
    (hok : update_ethtool d (some p) emptyRegistry = Except.ok (res, logs)) :
    ∀ n, n ∈ ETHTOOL_COUNTERS →
      (res ("ethtool_" ++ n ++ "_total", d) =
        (if ethKeyValues d ("ethtool_" ++ n ++ "_total", d) (splitlines p.stdout) = []
         then none
         else some (ethKeyValues d ("ethtool_" ++ n ++ "_total", d)
                      (splitlines p.stdout)).sum)) ∧
      (∀ v, ethKeyValues d ("ethtool_" ++ n ++ "_total", d) (splitlines p.stdout) = [v] →
        res ("ethtool_" ++ n ++ "_total", d) = some v) := by
  simp only [update_ethtool, h0] at hok
  simp at hok
  intro n _
  have hres : res = (splitlines p.stdout).foldl (ethtoolLineStep d) emptyRegistry :=
    hok.1.symm
  subst hres
  set k := (("ethtool_" ++ n ++ "_total", d) : String × String) with hkdef
  have hchar := ethFold_lookup (splitlines p.stdout) d emptyRegistry k
  constructor
  · rw [hchar]
    by_cases he : ethKeyValues d k (splitlines p.stdout) = []
    · simp [he, emptyRegistry]
    · simp [he, emptyRegistry]
  · intro v hv
    rw [hchar, hv]
    simp [emptyRegistry]

lemma string_affix_inj (pre suf a b : String)
    (h : pre ++ a ++ suf = pre ++ b ++ suf) : a = b := by
  have hd := congrArg String.data h
  simp only [String.data_append] at hd
  have h1 := List.append_cancel_right hd
  have h2 := List.append_cancel_left h1
  cases a; cases b; exact congrArg String.mk h2

lemma rdma_metric_ne (n1 n2 device : String) (h : n1 ≠ n2) :
    (("rdma_" ++ n1 ++ "_total", device) : String × String) ≠
      ("rdma_" ++ n2 ++ "_total", device) := by
  intro hh
  exact h (string_affix_inj "rdma_" "_total" n1 n2 (congrArg Prod.fst hh))

/-- The readings one run of the RDMA loop (over the given catalogue names)
contributes to the registry key `k`: the integer contents of the files read
and parsed successfully for a name whose (metric, device) pair is `k`. -/
def rdmaKeyValues (device ibdev : String) (port : Nat) (fs : String → Option String)
    (k : String × String) (names : List String) : List Nat :=
  names.filterMap (fun name =>
    match rdmaRead fs ibdev port name with
    | some v => if k = ("rdma_" ++ name ++ "_total", device) then some v.toNat else none
    | none => none)

lemma rdma_from_ok (names : List String) (device ibdev : String) (port : Nat)
    (fs : String → Option String) :
    ∀ r : Registry, (∀ name ∈ names, 0 ≤ (rdmaRead fs ibdev port name).getD 0) →
    ∃ res, update_rdma_from names device ibdev port fs r = Except.ok res := by
  induction names with
  | nil => exact fun r _ => ⟨r, rfl⟩
  | cons name rest ih =>
    intro r h
    have hname := h name (List.mem_cons_self name rest)
    have hrest : ∀ n ∈ rest, 0 ≤ (rdmaRead fs ibdev port n).getD 0 :=
      fun n hn => h n (List.mem_cons_of_mem name hn)
    cases hv : rdmaRead fs ibdev port name with
    | none =>
      obtain ⟨res, hres⟩ := ih r hrest
      exact ⟨res, by simp [update_rdma_from, hv, hres]⟩
    | some v =>
      rw [hv] at hname
      have hvnn : ¬ v < 0 := by simpa using hname
      obtain ⟨res, hres⟩ :=
        ih (regInc r ("rdma_" ++ name ++ "_total") device v.toNat) hrest
      exact ⟨res, by simp [update_rdma_from, hv, hvnn, hres]⟩

lemma rdma_from_lookup (names : List String) (device ibdev : String) (port : Nat)
    (fs : String → Option String) (k : String × String) :
    ∀ r res : Registry,
    update_rdma_from names device ibdev port fs r = Except.ok res →
    res k = (if rdmaKeyValues device ibdev port fs k names = [] then r k
             else some ((r k).getD 0 +
                        (rdmaKeyValues device ibdev port fs k names).sum)) := by
  induction names with
  | nil =>
    intro r res hok
    simp only [update_rdma_from, Except.ok.injEq] at hok
    subst hok
    simp [rdmaKeyValues]
  | cons name rest ih =>
    intro r res hok
    cases hv : rdmaRead fs ibdev port name with
    | none =>
      rw [update_rdma_from, hv] at hok
      have H := ih r res hok
      have hvals : rdmaKeyValues device ibdev port fs k (name :: rest) =
          rdmaKeyValues device ibdev port fs k rest := by
        simp [rdmaKeyValues, List.filterMap_cons, hv]
      rw [hvals, H]
    | some v =>
      simp only [update_rdma_from, hv] at hok
      by_cases hneg : v < 0
      · rw [if_pos hneg] at hok
        exact absurd hok (by simp)
      · rw [if_neg hneg] at hok
        have H := ih _ res hok
        by_cases hk : k = ("rdma_" ++ name ++ "_total", device)
        · have hreg : regInc r ("rdma_" ++ name ++ "_total") device v.toNat k =
              some ((r k).getD 0 + v.toNat) := by
            simp [regInc, hk]
          have hvals : rdmaKeyValues device ibdev port fs k (name :: rest) =
              v.toNat :: rdmaKeyValues device ibdev port fs k rest := by
            simp [rdmaKeyValues, List.filterMap_cons, hv, hk]
          rw [hvals, H, hreg]
          by_cases hrest : rdmaKeyValues device ibdev port fs k rest = []
          · simp [hrest]
          · simp [hrest, Nat.add_assoc]
        · have hreg : regInc r ("rdma_" ++ name ++ "_total") device v.toNat k = r k := by
            simp [regInc, hk]
          have hvals : rdmaKeyValues device ibdev port fs k (name :: rest) =
              rdmaKeyValues device ibdev port fs k rest := by
            simp [rdmaKeyValues, List.filterMap_cons, hv, hk]
          rw [hvals, H, hreg]

lemma rdmaKeyValues_not_mem (names : List String) (device ibdev : String)
    (port : Nat) (fs : String → Option String) (name : String)
    (hmem : name ∉ names) :
    rdmaKeyValues device ibdev port fs ("rdma_" ++ name ++ "_total", device) names
      = [] := by
  induction names with
  | nil => rfl
  | cons n0 rest ih =>
    have hne : name ≠ n0 := fun hh => hmem (hh ▸ List.mem_cons_self n0 rest)
    have hrest : name ∉ rest := fun hh => hmem (List.mem_cons_of_mem n0 hh)
    have hkey := rdma_metric_ne name n0 device hne
    cases hv : rdmaRead fs ibdev port n0 with
    | none =>
      simp only [rdmaKeyValues, List.filterMap_cons, hv]
      exact ih hrest
    | some v =>
      simp only [rdmaKeyValues, List.filterMap_cons, hv]
      rw [if_neg hkey]
      exact ih hrest

lemma rdmaKeyValues_single (names : List String) (device ibdev : String)
    (port : Nat) (fs : String → Option String) (name : String)
    (hnd : names.Nodup) (hmem : name ∈ names) :
    rdmaKeyValues device ibdev port fs ("rdma_" ++ name ++ "_total", device) names =
      (match rdmaRead fs ibdev port name with
       | some v => [v.toNat]
       | none => []) := by
  induction names with
  | nil => cases hmem
  | cons n0 rest ih =>
    rcases List.mem_cons.mp hmem with h | h
    · subst h
      have hnot : name ∉ rest := (List.nodup_cons.mp hnd).1
      have hrest := rdmaKeyValues_not_mem rest device ibdev port fs name hnot
      cases hv : rdmaRead fs ibdev port name with
      | none =>
        simp only [rdmaKeyValues, List.filterMap_cons, hv]
        exact hrest
      | some v =>
        simp only [rdmaKeyValues, List.filterMap_cons, hv, if_true]
        exact congrArg (v.toNat :: ·) hrest
    · have hne : name ≠ n0 := by
        intro hh
        subst hh
        exact (List.nodup_cons.mp hnd).1 h
      have hkey := rdma_metric_ne name n0 device hne
      have H := ih (List.nodup_cons.mp hnd).2 h
      cases hv : rdmaRead fs ibdev port n0 with
      | none =>
        simp only [rdmaKeyValues, List.filterMap_cons, hv]
        exact H
      | some v =>
        simp only [rdmaKeyValues, List.filterMap_cons, hv]
        rw [if_neg hkey]
        exact H

/-- Claim C6 amended: with a correlation (ibdev, port), the reader attempts
one file per RDMA-catalogue entry at the fixed path `rdmaPath ibdev port
name`; provided every readable content parses to a NONNEGATIVE integer, a
readable file adds exactly its value to the device's counter, while a
missing/unreadable file or non-integer content leaves that single counter
untouched, emits no warning (`update_rdma` produces no log output at all),
and the call still returns normally — no cycle-level failure. (A negative
integer content instead makes `Counter.inc` raise outside the try and abort
the scrape; see the counterexample.) -/
theorem claim_C6_rdma_reader_per_counter (d ibdev : String) (port : Nat)
    (fs : String → Option String) (r : Registry)
    (h : ∀ name ∈ RDMA_COUNTERS, 0 ≤ (rdmaRead fs ibdev port name).getD 0) :
    ∃ res, update_rdma d ibdev port fs r = Except.ok res ∧
      ∀ name ∈ RDMA_COUNTERS,
        (∀ v, rdmaRead fs ibdev port name = some v →
          res ("rdma_" ++ name ++ "_total", d) =
            some ((r ("rdma_" ++ name ++ "_total", d)).getD 0 + v.toNat)) ∧
        (rdmaRead fs ibdev port name = none →
          res ("rdma_" ++ name ++ "_total", d) = r ("rdma_" ++ name ++ "_total", d)) := by
  obtain ⟨res, hok⟩ := rdma_from_ok RDMA_COUNTERS d ibdev port fs r h
  refine ⟨res, hok, ?_⟩
  intro name hmem
  have hchar := rdma_from_lookup RDMA_COUNTERS d ibdev port fs
    ("rdma_" ++ name ++ "_total", d) r res hok
  have hsingle := rdmaKeyValues_single RDMA_COUNTERS d ibdev port fs name
    (by decide) hmem
  constructor
  · intro v hv
    rw [hchar, hsingle, hv]
    simp
  · intro hv
    rw [hchar, hsingle, hv]
    simp

/-- A sysfs tree holding exactly one readable counter file, containing "42". -/
def c6fs : String → Option String := fun p =>
  if p = "/sys/class/infiniband/mlx5_0/ports/1/hw_counters/out_of_buffer"
  then some "42" else none

theorem claim_C6_witness :
    ∃ res, update_rdma "eth0" "mlx5_0" 1 c6fs emptyRegistry = Except.ok res ∧
      res ("rdma_out_of_buffer_total", "eth0") = some 42 ∧
      res ("rdma_req_cqe_error_total", "eth0") = none := by
  obtain ⟨res, hok, hall⟩ := claim_C6_rdma_reader_per_counter "eth0" "mlx5_0" 1 c6fs
    emptyRegistry (by decide)
  refine ⟨res, hok, ?_, ?_⟩
  · have h := (hall "out_of_buffer" (by decide)).1 42 (by decide)
    simpa [emptyRegistry] using h
  · have h := (hall "req_cqe_error" (by decide)).2 (by decide)
    simpa [emptyRegistry] using h

/-- A sysfs tree holding exactly one readable counter file, containing "-1":
content that `int()` parses, but whose increment `Counter.inc(-1)` raises
`ValueError` in the `else:` clause, outside the `try`. -/
def c6negfs : String → Option String := fun p =>
  if p = "/sys/class/infiniband/mlx5_0/ports/1/hw_counters/out_of_buffer"
  then some "-1" else none

/-- A world whose single physical device is correlated and whose sysfs tree
is `c6negfs`: the ethtool step succeeds with empty output, then the RDMA
reader hits the negative counter file. -/
def c6negWorld : World where
  sysClassNet := ["eth0"]
  hasDeviceLink := fun _ => true
  ibSpawn := some ⟨0, "mlx5_0 port 1 ==> eth0\n", ""⟩
  ethtoolSpawn := fun _ => some ⟨0, "", ""⟩
  sysfs := c6negfs

/-- Claim C6 counterexample: a present, readable file whose entire content
parses as the integer -1 does NOT increment the counter by that value and is
NOT tolerated per-counter: `int(f.read())` succeeds inside the `try`, and
`counter.labels(device).inc(-1)` then raises `ValueError` in the `else:`
clause, outside the `try`, so `update_rdma` raises and the whole scrape
aborts — a cycle-level failure. -/
theorem claim_C6_counterexample :
    pyInt "-1" = some (-1) ∧
    update_rdma "eth0" "mlx5_0" 1 c6negfs emptyRegistry = Except.error () ∧
    get_counters c6negWorld = Except.error () :=
  ⟨by decide, rfl, rfl⟩

/-- Observable evidence that the ethtool reader successfully parsed a reading
for catalogue name `n` on device `d` in world `w` during this cycle. -/
def ethSampleJust (w : World) (n d : String) : Prop :=
  ∃ p, w.ethtoolSpawn d = some p ∧ p.returncode = 0 ∧
    ∃ line, line ∈ splitlines p.stdout ∧ ∃ v, parseEthtoolLine line.data = some (n, v)

/-- Observable evidence that the RDMA reader successfully read and parsed the
counter file for catalogue name `n` on device `d` in world `w` this cycle. -/
def rdmaSampleJust (w : World) (n d : String) : Prop :=
  ∃ ibdev port, lookupA (ibdev_mapping w.ibSpawn) d = some (ibdev, port) ∧
    ∃ v, rdmaRead w.sysfs ibdev port n = some v

lemma update_ethtool_new_key (d : String) (spawn : Option ProcResult)
    (r res : Registry) (logs : List String)
    (hok : update_ethtool d spawn r = Except.ok (res, logs))
    (k : String × String) (hne : res k ≠ r k) :
    ∃ p, spawn = some p ∧ p.returncode = 0 ∧
      ∃ n, n ∈ ETHTOOL_COUNTERS ∧ k = ("ethtool_" ++ n ++ "_total", d) ∧
        ∃ line, line ∈ splitlines p.stdout ∧
          ∃ v, parseEthtoolLine line.data = some (n, v) := by
  cases spawn with
  | none => exact absurd hok (by simp [update_ethtool])
  | some p =>
    by_cases h0 : p.returncode = 0
    · simp only [update_ethtool, h0] at hok
      simp at hok
      have hres : res = (splitlines p.stdout).foldl (ethtoolLineStep d) r := hok.1.symm
      subst hres
      rw [ethFold_lookup] at hne
      by_cases he : ethKeyValues d k (splitlines p.stdout) = []
      · rw [if_pos he] at hne
        exact absurd rfl hne
      · obtain ⟨val, hvmem⟩ := List.exists_mem_of_ne_nil _ he
        obtain ⟨line, hline, hf⟩ := List.mem_filterMap.mp hvmem
        cases hp : parseEthtoolLine line.data with
        | none => simp [hp] at hf
        | some pr =>
          obtain ⟨name, value⟩ := pr
          simp only [hp] at hf
          by_cases hc : name ∈ ETHTOOL_COUNTERS ∧
              k = ("ethtool_" ++ name ++ "_total", d)
          · exact ⟨p, rfl, h0, name, hc.1, hc.2, line, hline, value, hp⟩
          · rw [if_neg hc] at hf
            exact absurd hf (by simp)
    · exfalso
      simp only [update_ethtool, if_pos h0] at hok
      by_cases h94 : p.returncode = 94
      · rw [if_neg (fun hh => hh h94)] at hok
        simp at hok
        exact hne (by rw [hok.1])
      · rw [if_pos h94] at hok
        simp at hok
        exact hne (by rw [hok.1])

lemma update_rdma_new_key (d ibdev : String) (port : Nat)
    (fs : String → Option String) (r res : Registry)
    (hok : update_rdma d ibdev port fs r = Except.ok res)
    (k : String × String) (hne : res k ≠ r k) :
    ∃ n, n ∈ RDMA_COUNTERS ∧ k = ("rdma_" ++ n ++ "_total", d) ∧
      ∃ v, rdmaRead fs ibdev port n = some v := by
  have hchar := rdma_from_lookup RDMA_COUNTERS d ibdev port fs k r res hok
  by_cases he : rdmaKeyValues d ibdev port fs k RDMA_COUNTERS = []
  · rw [hchar, if_pos he] at hne
    exact absurd rfl hne
  · obtain ⟨val, hvmem⟩ := List.exists_mem_of_ne_nil _ he
    obtain ⟨nm, hnmem, hf⟩ := List.mem_filterMap.mp hvmem
    cases hv : rdmaRead fs ibdev port nm with
    | none => simp [hv] at hf
    | some v =>
      simp only [hv] at hf
      by_cases hc : k = ("rdma_" ++ nm ++ "_total", d)
      · exact ⟨nm, hnmem, hc, v, hv⟩
      · rw [if_neg hc] at hf
        exact absurd hf (by simp)

lemma deviceStep_new_key (w : World) (ibdevs : IbMap)
    (acc : Registry × List String) (d : String) (acc2 : Registry × List String)
    (hok : deviceStep w ibdevs acc d = Except.ok acc2)
    (k : String × String) (hne : acc2.1 k ≠ acc.1 k) :
    (∃ n, n ∈ ETHTOOL_COUNTERS ∧ k = ("ethtool_" ++ n ++ "_total", d) ∧
      ∃ p, w.ethtoolSpawn d = some p ∧ p.returncode = 0 ∧
        ∃ line, line ∈ splitlines p.stdout ∧
          ∃ v, parseEthtoolLine line.data = some (n, v)) ∨
    (∃ n, n ∈ RDMA_COUNTERS ∧ k = ("rdma_" ++ n ++ "_total", d) ∧
      ∃ ibdev port, lookupA ibdevs d = some (ibdev, port) ∧
        ∃ v, rdmaRead w.sysfs ibdev port n = some v) := by
  unfold deviceStep at hok
  cases hu : update_ethtool d (w.ethtoolSpawn d) acc.1 with
  | error e => rw [hu] at hok; exact absurd hok (by simp)
  | ok pr =>
    obtain ⟨r1, logs1⟩ := pr
    simp only [hu] at hok
    cases hl : lookupA ibdevs d with
    | none =>
      simp only [hl] at hok
      injection hok with hok2
      subst hok2
      obtain ⟨p, hp, h0, n, hn, hk, hrest⟩ :=
        update_ethtool_new_key d (w.ethtoolSpawn d) acc.1 r1 logs1 hu k hne
      exact Or.inl ⟨n, hn, hk, p, hp, h0, hrest⟩
    | some pr2 =>
      obtain ⟨ibdev, port⟩ := pr2
      simp only [hl] at hok
      cases hr : update_rdma d ibdev port w.sysfs r1 with
      | error e => rw [hr] at hok; exact absurd hok (by simp)
      | ok r2 =>
        simp only [hr] at hok
        injection hok with hok2
        subst hok2
        by_cases hmid : r2 k = r1 k
        · have hne2 : r1 k ≠ acc.1 k := fun hh => hne (hmid.trans hh)
          obtain ⟨p, hp, h0, n, hn, hk, hrest⟩ :=
            update_ethtool_new_key d (w.ethtoolSpawn d) acc.1 r1 logs1 hu k hne2
          exact Or.inl ⟨n, hn, hk, p, hp, h0, hrest⟩
        · obtain ⟨n, hn, hk, v, hv⟩ :=
            update_rdma_new_key d ibdev port w.sysfs r1 r2 hr k hmid
          exact Or.inr ⟨n, hn, hk, ibdev, port, rfl, v, hv⟩

lemma scrapeFold_new_key (w : World) (ibdevs : IbMap) :
    ∀ (devs : List String) (acc res : Registry × List String),
    scrapeFold w ibdevs devs acc = Except.ok res →
    ∀ k, res.1 k ≠ acc.1 k →
    ∃ d, d ∈ devs ∧
      ((∃ n, n ∈ ETHTOOL_COUNTERS ∧ k = ("ethtool_" ++ n ++ "_total", d) ∧
        ∃ p, w.ethtoolSpawn d = some p ∧ p.returncode = 0 ∧
          ∃ line, line ∈ splitlines p.stdout ∧
            ∃ v, parseEthtoolLine line.data = some (n, v)) ∨
      (∃ n, n ∈ RDMA_COUNTERS ∧ k = ("rdma_" ++ n ++ "_total", d) ∧
        ∃ ibdev port, lookupA ibdevs d = some (ibdev, port) ∧
          ∃ v, rdmaRead w.sysfs ibdev port n = some v)) := by
  intro devs
  induction devs with
  | nil =>
    intro acc res hok k hne
    simp only [scrapeFold] at hok
    injection hok with hok2
    subst hok2
    exact absurd rfl hne
  | cons d rest ih =>
    intro acc res hok k hne
    simp only [scrapeFold] at hok
    cases hd : deviceStep w ibdevs acc d with
    | error e => rw [hd] at hok; exact absurd hok (by simp)
    | ok acc2 =>
      simp only [hd] at hok
      by_cases hmid : res.1 k = acc2.1 k
      · have hne2 : acc2.1 k ≠ acc.1 k := fun hh => hne (hmid.trans hh)
        exact ⟨d, List.mem_cons_self d rest,
          deviceStep_new_key w ibdevs acc d acc2 hd k hne2⟩
      · obtain ⟨d', hd', big⟩ := ih acc2 res hok k hmid
        exact ⟨d', List.mem_cons_of_mem d hd', big⟩

/-- Master invariant: a sample line rendered for (m, d) implies d is a listed
physical device and a successful parse/read justifies the pair this cycle. -/
lemma scrapeSample_just (w : World) (m d : String)
    (h : (scrapeSample w m d).isSome) :
    d ∈ physical_devices w ∧
    ((∃ n, n ∈ ETHTOOL_COUNTERS ∧ m = "ethtool_" ++ n ++ "_total" ∧
        ethSampleJust w n d) ∨
     (∃ n, n ∈ RDMA_COUNTERS ∧ m = "rdma_" ++ n ++ "_total" ∧
        rdmaSampleJust w n d)) := by
  unfold scrapeSample at h
  cases hg : get_counters w with
  | error e => rw [hg] at h; simp at h
  | ok pr =>
    obtain ⟨r, logs⟩ := pr
    simp only [hg] at h
    have hne : r (m, d) ≠ emptyRegistry (m, d) := by
      intro hh
      rw [hh] at h
      simp [emptyRegistry] at h
    unfold get_counters at hg
    obtain ⟨d', hd', big⟩ := scrapeFold_new_key w (ibdev_mapping w.ibSpawn)
      (physical_devices w) (emptyRegistry, []) (r, logs) hg (m, d) hne
    rcases big with ⟨n, hn, hk, p, hp, h0, hrest⟩ | ⟨n, hn, hk, ibdev, port, hlk, v, hv⟩
    · have hm : m = "ethtool_" ++ n ++ "_total" := congrArg Prod.fst hk
      have hdd : d = d' := congrArg Prod.snd hk
      subst hdd
      exact ⟨hd', Or.inl ⟨n, hn, hm, p, hp, h0, hrest⟩⟩
    · have hm : m = "rdma_" ++ n ++ "_total" := congrArg Prod.fst hk
      have hdd : d = d' := congrArg Prod.snd hk
      subst hdd
      exact ⟨hd', Or.inr ⟨n, hn, hm, ibdev, port, hlk, v, hv⟩⟩

/-- Claim C1: a sample line for device d under metric m appears in the
rendered output only if a numeric value was successfully parsed (ethtool
path) or read (RDMA path) for that device/metric pair during the current
cycle — failures are omitted, never rendered as zero — and only for devices
of the physical-device list. -/
theorem claim_C1_sample_only_if_parsed (w : World) (m d : String)
    (h : (scrapeSample w m d).isSome) :
    d ∈ physical_devices w ∧
    ((∃ n, n ∈ ETHTOOL_COUNTERS ∧ m = "ethtool_" ++ n ++ "_total" ∧
        ethSampleJust w n d) ∨
     (∃ n, n ∈ RDMA_COUNTERS ∧ m = "rdma_" ++ n ++ "_total" ∧
        rdmaSampleJust w n d)) :=
  scrapeSample_just w m d h

/-- World for exercising a full successful scrape: one physical device with
one parsed ethtool reading and one readable RDMA counter file. -/
def w1ok : World where
  sysClassNet := ["eth0"]
  hasDeviceLink := fun _ => true
  ibSpawn := some ⟨0, "mlx5_0 port 1 ==> eth0\n", ""⟩
  ethtoolSpawn := fun _ => some ⟨0, "  rx_bytes_phy: 100\n", ""⟩
  sysfs := fun p =>
    if p = "/sys/class/infiniband/mlx5_0/ports/1/hw_counters/out_of_buffer"
    then some "42" else none

theorem claim_C1_witness :
    (scrapeSample w1ok "ethtool_rx_bytes_phy_total" "eth0").isSome ∧
    ("eth0" ∈ physical_devices w1ok ∧
     ((∃ n, n ∈ ETHTOOL_COUNTERS ∧
         "ethtool_rx_bytes_phy_total" = "ethtool_" ++ n ++ "_total" ∧
         ethSampleJust w1ok n "eth0") ∨
      (∃ n, n ∈ RDMA_COUNTERS ∧
         "ethtool_rx_bytes_phy_total" = "rdma_" ++ n ++ "_total" ∧
         rdmaSampleJust w1ok n "eth0"))) :=
  ⟨by decide, claim_C1_sample_only_if_parsed w1ok "ethtool_rx_bytes_phy_total"
    "eth0" (by decide)⟩

/-- Claim C7: throughout a scrape cycle every counter name present in the
registry comes from one of the two fixed catalogues, with its fixed prefix:
the two populating operations can only ever add keys whose metric name is
`ethtool_<n>_total` (n in the ethtool catalogue) resp. `rdma_<n>_total`
(n in the RDMA catalogue), and hence any rendered sample's metric name is of
one of these two forms. -/
theorem claim_C7_registry_only_catalogue_names :
    (∀ (d : String) (spawn : Option ProcResult) (r : Registry)
        (res : Registry × List String),
      update_ethtool d spawn r = Except.ok res →
      ∀ k, (res.1 k).isSome → (r k).isSome ∨
        ∃ n, n ∈ ETHTOOL_COUNTERS ∧ k.1 = "ethtool_" ++ n ++ "_total") ∧
    (∀ (d ibdev : String) (port : Nat) (fs : String → Option String)
        (r res : Registry),
      update_rdma d ibdev port fs r = Except.ok res →
      ∀ k, (res k).isSome → (r k).isSome ∨
        ∃ n, n ∈ RDMA_COUNTERS ∧ k.1 = "rdma_" ++ n ++ "_total") ∧
    (∀ (w : World) (m d : String), (scrapeSample w m d).isSome →
      (∃ n, n ∈ ETHTOOL_COUNTERS ∧ m = "ethtool_" ++ n ++ "_total") ∨
      (∃ n, n ∈ RDMA_COUNTERS ∧ m = "rdma_" ++ n ++ "_total")) := by
  refine ⟨?_, ?_, ?_⟩
  · intro d spawn r res hok k hsome
    by_cases hchg : res.1 k = r k
    · exact Or.inl (hchg ▸ hsome)
    · obtain ⟨res1, logs1⟩ := res
      obtain ⟨p, hp, h0, n, hn, hk, hrest⟩ :=
        update_ethtool_new_key d spawn r res1 logs1 hok k hchg
      exact Or.inr ⟨n, hn, congrArg Prod.fst hk⟩
  · intro d ibdev port fs r res hok k hsome
    by_cases hchg : res k = r k
    · exact Or.inl (hchg ▸ hsome)
    · obtain ⟨n, hn, hk, v, hv⟩ :=
        update_rdma_new_key d ibdev port fs r res hok k hchg
      exact Or.inr ⟨n, hn, congrArg Prod.fst hk⟩
  · intro w m d h
    obtain ⟨_, hcase⟩ := scrapeSample_just w m d h
    rcases hcase with ⟨n, hn, hm, _⟩ | ⟨n, hn, hm, _⟩
    · exact Or.inl ⟨n, hn, hm⟩
    · exact Or.inr ⟨n, hn, hm⟩

/-- World for the C7 witness: identical shape to a healthy host but used
through the scrape-level component of the claim. -/
def w7ok : World where
  sysClassNet := ["eth1"]
  hasDeviceLink := fun _ => true
  ibSpawn := some ⟨0, "mlx5_1 port 2 ==> eth1\n", ""⟩
  ethtoolSpawn := fun _ => some ⟨0, "  tx_dropped: 3\n", ""⟩
  sysfs := fun p =>
    if p = "/sys/class/infiniband/mlx5_1/ports/2/hw_counters/req_cqe_error"
    then some "7" else none

theorem claim_C7_witness :
    (scrapeSample w7ok "rdma_req_cqe_error_total" "eth1").isSome ∧
    ((∃ n, n ∈ ETHTOOL_COUNTERS ∧
        "rdma_req_cqe_error_total" = "ethtool_" ++ n ++ "_total") ∨
     (∃ n, n ∈ RDMA_COUNTERS ∧
        "rdma_req_cqe_error_total" = "rdma_" ++ n ++ "_total")) :=
  ⟨by decide, claim_C7_registry_only_catalogue_names.2.2 w7ok
    "rdma_req_cqe_error_total" "eth1" (by decide)⟩

lemma scrapeFold_no_ib_sysfs_irrelevant (w : World) (fs2 : String → Option String) :
    ∀ (devs : List String) (acc : Registry × List String),
    scrapeFold w [] devs acc = scrapeFold {w with sysfs := fs2} [] devs acc := by
  intro devs
  induction devs with
  | nil => intro acc; rfl
  | cons d rest ih =>
    intro acc
    simp only [scrapeFold]
    rw [show deviceStep {w with sysfs := fs2} [] acc d = deviceStep w [] acc d from rfl]
    cases deviceStep w [] acc d with
    | error e => rfl
    | ok acc2 => exact ih acc2

/-- Claim C4: when the mapping-tool binary is missing or exits nonzero, the
correlator returns the empty mapping; the scrape result is then independent
of the sysfs tree (no device receives any RDMA counters that cycle), while
ethtool counters populate exactly as they otherwise would — any rendered
sample is an ethtool-catalogue metric. -/
theorem claim_C4_mapping_failure_empty_and_degraded (w : World)
    (fs2 : String → Option String)
    (hib : w.ibSpawn = none ∨ ∃ p, w.ibSpawn = some p ∧ p.returncode ≠ 0) :
    ibdev_mapping w.ibSpawn = [] ∧
    get_counters w = get_counters {w with sysfs := fs2} ∧
    (∀ m d, (scrapeSample w m d).isSome →
      ∃ n, n ∈ ETHTOOL_COUNTERS ∧ m = "ethtool_" ++ n ++ "_total") := by
  have hmap : ibdev_mapping w.ibSpawn = [] := by
    rcases hib with h | ⟨p, hp, hrc⟩
    · rw [h]; rfl
    · rw [hp]; simp [ibdev_mapping, hrc]
  refine ⟨hmap, ?_, ?_⟩
  · unfold get_counters
    show scrapeFold w (ibdev_mapping w.ibSpawn) (physical_devices w)
        (emptyRegistry, []) =
      scrapeFold {w with sysfs := fs2} (ibdev_mapping w.ibSpawn)
        (physical_devices w) (emptyRegistry, [])
    rw [hmap]
    exact scrapeFold_no_ib_sysfs_irrelevant w fs2 (physical_devices w)
      (emptyRegistry, [])
  · intro m d h
    obtain ⟨_, hcase⟩ := scrapeSample_just w m d h
    rcases hcase with ⟨n, hn, hm, _⟩ | ⟨n, hn, hm, hj⟩
    · exact ⟨n, hn, hm⟩
    · exfalso
      obtain ⟨ibdev, port, hlk, _⟩ := hj
      rw [hmap] at hlk
      exact absurd hlk (by simp [lookupA])

/-- World for the C4 witness: mapping binary absent, ethtool healthy, and a
sysfs tree that would hold readable counter files. -/
def w4noib : World where
  sysClassNet := ["eth0"]
  hasDeviceLink := fun _ => true
  ibSpawn := none
  ethtoolSpawn := fun _ => some ⟨0, "  rx_bytes_phy: 100\n", ""⟩
  sysfs := fun _ => some "42"

theorem claim_C4_witness :
    (w4noib.ibSpawn = none ∨ ∃ p, w4noib.ibSpawn = some p ∧ p.returncode ≠ 0) ∧
    (ibdev_mapping w4noib.ibSpawn = [] ∧
     get_counters w4noib = get_counters {w4noib with sysfs := fun _ => none} ∧
     (∀ m d, (scrapeSample w4noib m d).isSome →
       ∃ n, n ∈ ETHTOOL_COUNTERS ∧ m = "ethtool_" ++ n ++ "_total")) :=
  ⟨Or.inl rfl,
   claim_C4_mapping_failure_empty_and_degraded w4noib (fun _ => none) (Or.inl rfl)⟩

/-- Claim C8: the scrape result is a function of the cycle's observable
inputs alone — two invocations seeing identical device listings, identical
tool outcomes and identical filesystem contents produce identical results
(the registry is rebuilt from zero inside `get_counters`, so nothing of a
prior scrape can influence the outcome). -/
theorem claim_C8_scrape_depends_only_on_inputs (w1 w2 : World)
    (hnet : w1.sysClassNet = w2.sysClassNet)
    (hdev : ∀ d, w1.hasDeviceLink d = w2.hasDeviceLink d)
    (hib : w1.ibSpawn = w2.ibSpawn)
    (heth : ∀ d, w1.ethtoolSpawn d = w2.ethtoolSpawn d)
    (hfs : ∀ p, w1.sysfs p = w2.sysfs p) :
    get_counters w1 = get_counters w2 := by
  obtain ⟨net1, dev1, ib1, eth1, fs1⟩ := w1
  obtain ⟨net2, dev2, ib2, eth2, fs2⟩ := w2
  have h1 : net1 = net2 := hnet
  have h2 : dev1 = dev2 := funext fun d => hdev d
  have h3 : ib1 = ib2 := hib
  have h4 : eth1 = eth2 := funext fun d => heth d
  have h5 : fs1 = fs2 := funext fun p => hfs p
  subst h1 h2 h3 h4 h5
  rfl

theorem claim_C8_witness :
    get_counters ⟨["eth0"], fun _ => true, some ⟨0, "", ""⟩,
      fun _ => some ⟨0, "  tx_dropped: 3\n", ""⟩, fun _ => none⟩ =
    get_counters ⟨["eth0"], fun _d => true, some ⟨0, "", ""⟩,
      fun _d => some ⟨0, "  tx_dropped: 3\n", ""⟩, fun _s => none⟩ :=
  claim_C8_scrape_depends_only_on_inputs _ _ rfl (fun _ => rfl) rfl
    (fun _ => rfl) (fun _ => rfl)

theorem claim_C9_amended_witness :
    (splitlines "  rx_bytes_phy: 100\n").foldl (ethtoolLineStep "eth0") emptyRegistry
      ("ethtool_rx_bytes_phy_total", "eth0") = some 100 :=
  ((claim_C9_amended_value_is_cycle_sum "eth0" ⟨0, "  rx_bytes_phy: 100\n", ""⟩
    ((splitlines "  rx_bytes_phy: 100\n").foldl (ethtoolLineStep "eth0") emptyRegistry)
    [] rfl rfl "rx_bytes_phy" (by decide)).2 100 (by decide))
